import Mathlib

/-!
Verification development for the ICMP probe tools `my_ping.py` and
`my_traceroute.py`.

The two Python files share their packet engine (`checksum`,
`create_packet`), differ in the reply listener (`receive_ping` vs
`receive_traceroute`) and in the probe loop (`ping` vs `traceroute`).
This file gives a shallow embedding of those functions over `Nat` byte
lists, rational wall-clock time for the listener, and explicit oracles
for the network / DNS environment of the probe loops, and proves (or
refutes at concrete inputs) the behavioural properties claimed for them.

Conventions:
* a byte buffer is a `List Nat` (entries produced by the code are < 256);
* a Python function that can raise on the modelled path returns `Option`
  (`none` = an exception escapes);
* wall-clock instants and durations are `ℚ`.
-/

/-! ### Checksum (`my_ping.py` lines 10-29, `my_traceroute.py` lines 9-28) -/

/-- Fuelled version of the carry-fold loop
`while sum >> 16: sum = (sum >> 16) + (sum & 0xFFFF)`.
Each iteration strictly decreases a positive `sum` with a pending carry,
so running with `fuel = sum` always reaches the fixed point; the fuel only
makes the recursion structural.  `fold16Go_isFixpoint` below shows the
result satisfies the loop's defining equation. -/
def fold16Go : Nat → Nat → Nat
  | 0, s => s
  | fuel + 1, s => if s < 65536 then s else fold16Go fuel ((s >>> 16) + (s &&& 65535))

/-- The carry-fold loop of `checksum`, entered with value `s`. -/
def fold16 (s : Nat) : Nat := fold16Go s s

/-- The word-summing loop of `checksum`:
`for i in range(0, len(s) - count, 2): sum += (s[i] << 8) + s[i + 1]`.
First component: the accumulated sum (an odd trailing byte is never
paired, matching `range(0, len - 1, 2)` for odd length).  Second
component: the byte `s[i + 1]` read by the last executed iteration,
`none` when the loop body never ran — this is exactly the value the
odd-length branch `sum += source_string[i + 1]` later reads, `i` still
holding the last loop index. -/
def pairSumLast : List Nat → Nat × Option Nat
  | a :: b :: rest =>
    match pairSumLast rest with
    | (t, some l) => ((a <<< 8) + b + t, some l)
    | (t, none) => ((a <<< 8) + b + t, some b)
  | _ => (0, none)

/-- The value `sum` holds when `checksum` reaches the fold loop: pair sum
plus, for odd-length input, the stray `sum += source_string[i + 1]`.
Returns `none` for the length-1 buffer: the pair loop never ran, `i` is
unbound, and the Python raises `NameError`. -/
def icmpSum (s : List Nat) : Option Nat :=
  match pairSumLast s with
  | (t, l) =>
    if s.length % 2 = 1 then
      match l with
      | none => none
      | some x => some (t + x)
    else some t

/-- `checksum` from the sources (identical in both files): word-sum the
buffer, fold carries, return `~sum & 0xFFFF` — for `0 ≤ x < 2 ^ 16` the
Python complement-and-mask equals `65535 - x`.  `none` models the
`NameError` escaping on buffers of length 1. -/
def checksum (s : List Nat) : Option Nat :=
  (icmpSum s).map (fun t => 65535 - fold16 t)

/-- Modelled from the spec (§4.1), for comparison with `checksum`: the
standard Internet checksum's word list — consecutive big-endian 16-bit
words, an odd final byte taken as the high byte of a virtual trailing
word. -/
def stdWords : List Nat → List Nat
  | [] => []
  | [a] => [a <<< 8]
  | a :: b :: rest => ((a <<< 8) + b) :: stdWords rest

/-- Modelled from the spec (§4.1): the standard Internet checksum — sum
the words of `stdWords`, fold carries, return the masked complement. -/
def stdChecksum (s : List Nat) : Nat := 65535 - fold16 (stdWords s).sum

/-! ### Packet builder (`my_ping.py` lines 32-47, `my_traceroute.py` lines 31-46) -/

/-- `create_packet`: `struct.pack('!BBHHH', 8, 0, c, id, 1)` is the byte
list `[8, 0, c / 256, c % 256, id / 256, id % 256, 0, 1]` (big-endian
fields); the payload byte at offset `i` is `i % 256`.  `struct.pack`
raises `struct.error` for `id ≥ 2 ^ 16`, modelled by `none`; the inner
`checksum` call is kept as an `Option` bind to stay faithful, though it
cannot fail here (the buffer length `8 + data_size` is never 1). -/
def create_packet (id data_size : Nat) : Option (List Nat) :=
  if id < 65536 then
    (checksum ([8, 0, 0, 0, id / 256, id % 256, 0, 1]
        ++ (List.range data_size).map (fun i => i % 256))).map
      (fun c => [8, 0, c / 256, c % 256, id / 256, id % 256, 0, 1]
        ++ (List.range data_size).map (fun i => i % 256))
  else none

/-! ### Reply listener (`my_ping.py` lines 50-72, `my_traceroute.py` lines 49-81)

The listener is driven by wall-clock time and by the stream of inbound
datagrams.  We model the environment as a chronological list of `Event`s:
each event is a datagram that becomes readable at `time`, read by
`recvfrom` as `(data, addr)`.  `select` with a remaining-time argument
returns ready exactly when the next datagram becomes readable no later
than the armed deadline; otherwise the wait expires.  Reading, parsing
and looping take no model time — the only time that passes is spent
waiting. -/

structure Event where
  time : ℚ
  addr : Nat
  data : List Nat
deriving DecidableEq

/-- The five fields unpacked by `struct.unpack('!BBHHH', packet[20:28])`. -/
structure IcmpHeader where
  ty : Nat
  code : Nat
  cksum : Nat
  packet_id : Nat
  seq : Nat
deriving DecidableEq

/-- `packet[20:28]` followed by `struct.unpack('!BBHHH', ...)`: big-endian
fields from the 8 bytes after the 20-byte IP header.  `struct.unpack`
raises `struct.error` unless the slice has exactly 8 bytes — `none`
models that exception (the slice is shorter than 8 exactly when the
datagram has fewer than 28 bytes). -/
def parseICMP (pkt : List Nat) : Option IcmpHeader :=
  match (pkt.drop 20).take 8 with
  | [b0, b1, b2, b3, b4, b5, b6, b7] =>
    some ⟨b0, b1, b2 * 256 + b3, b4 * 256 + b5, b6 * 256 + b7⟩
  | _ => none

/-- Result of one listener invocation.  `reply` carries the source
address and the RTT in milliseconds; for the traceroute listener `reply`
is the `(addr, rtt, True)` return and `exceeded` the `(addr, rtt, False)`
return, while `timedOut` is `None` (ping) / `(None, None, False)`
(traceroute).  `crashed` marks an escaping exception. -/
inductive RecvResult where
  | reply (addr : Nat) (rtt : ℚ)
  | exceeded (addr : Nat) (rtt : ℚ)
  | timedOut
  | crashed
deriving DecidableEq

/-- `receive_ping(sock, id, timeout)`.  `t0` is `time_received`; the
second argument of the recursion is the current wall-clock instant
(initially `t0`).  Each round re-checks `time.time() - time_received <
timeout`, then arms `select` with exactly the remaining time
`timeout - (now - t0)`; a datagram readable within that window is
consumed at its arrival instant, otherwise the wait expires at the
deadline `t0 + timeout`.  Returns the (result, instant-of-return)
pair. -/
def receive_ping (id : Nat) (timeout t0 : ℚ) : List Event → ℚ → RecvResult × ℚ
  | [], now =>
    if now - t0 < timeout then (RecvResult.timedOut, t0 + timeout)
    else (RecvResult.timedOut, now)
  | e :: rest, now =>
    if now - t0 < timeout then
      if e.time - now ≤ timeout - (now - t0) then
        match parseICMP e.data with
        | none => (RecvResult.crashed, e.time)
        | some h =>
          if h.ty = 0 ∧ h.packet_id = id then
            (RecvResult.reply e.addr ((e.time - t0) * 1000), e.time)
          else receive_ping id timeout t0 rest e.time
      else (RecvResult.timedOut, t0 + timeout)
    else (RecvResult.timedOut, now)

/-- `receive_traceroute(sock, id, ttl, timeout)` (`ttl` is unused by the
source).  Same wait discipline as `receive_ping`; the packet dispatch
keeps the source's guard literally: `if packet_id != id or packet_id ==
id`, under which type 0 returns `(addr, rtt, True)` (`reply`), type 11
returns `(addr, rtt, False)` (`exceeded`), and any other type falls
through to the next wait round. -/
def receive_traceroute (id : Nat) (timeout t0 : ℚ) : List Event → ℚ → RecvResult × ℚ
  | [], now =>
    if now - t0 < timeout then (RecvResult.timedOut, t0 + timeout)
    else (RecvResult.timedOut, now)
  | e :: rest, now =>
    if now - t0 < timeout then
      if e.time - now ≤ timeout - (now - t0) then
        match parseICMP e.data with
        | none => (RecvResult.crashed, e.time)
        | some h =>
          if h.packet_id ≠ id ∨ h.packet_id = id then
            if h.ty = 0 then (RecvResult.reply e.addr ((e.time - t0) * 1000), e.time)
            else if h.ty = 11 then (RecvResult.exceeded e.addr ((e.time - t0) * 1000), e.time)
            else receive_traceroute id timeout t0 rest e.time
          else receive_traceroute id timeout t0 rest e.time
      else (RecvResult.timedOut, t0 + timeout)
    else (RecvResult.timedOut, now)

/-! ### Probe loop, ping mode (`my_ping.py` lines 75-121)

The loop body is observation-independent: it sends, waits for the
listener's observation (abstracted here as a per-attempt oracle `recv i`
— `true` = a matching reply arrived, `false` = timeout; the crashing
listener executions are settled separately on the listener model),
prints, and sleeps `interval` seconds — unconditionally, every
iteration.  The trace records what the claims speak about: socket
lifecycle, number of `sendto` calls, number of `time.sleep(interval)`
calls, and the observation consumed per attempt. -/

structure PingSt where
  sends : Nat
  sleepCount : Nat
  observations : List Bool
deriving DecidableEq

/-- `for i in range(count): ...` of `ping`, over the remaining iteration
indices. -/
def pingLoop (recv : Nat → Bool) : List Nat → PingSt → PingSt
  | [], st => st
  | i :: rest, st =>
    pingLoop recv rest
      { sends := st.sends + 1
        sleepCount := st.sleepCount + 1
        observations := st.observations ++ [recv i] }

structure PingTrace where
  opened : Bool
  closeCount : Nat
  loop : PingSt
deriving DecidableEq

/-- `ping(host, count, interval, timeout, data_size)`: opening the raw
socket fails without privilege (`permission = false`; early return, no
socket); `socket.gethostbyname` fails when `resolves = false` — the
source then returns while the already-opened socket is still open.  On
the main path the loop runs over `range(count)` and `sock.close()` runs
once after it. -/
def ping (permission resolves : Bool) (recv : Nat → Bool) (count : Nat) : PingTrace :=
  if permission = false then ⟨false, 0, ⟨0, 0, []⟩⟩
  else if resolves = false then ⟨true, 0, ⟨0, 0, []⟩⟩
  else ⟨true, 1, pingLoop recv (List.range count) ⟨0, 0, []⟩⟩

/-! ### Probe loop, traceroute mode (`my_traceroute.py` lines 84-154) -/

/-- The three observations the traceroute loop distinguishes in its
listener's return value: `(addr, rtt, True)`, `(addr, rtt, False)`,
`(None, None, False)`. -/
inductive TrOutcome where
  | reply
  | exceeded
  | timedOut
deriving DecidableEq

structure TrState where
  sends : Nat
  sleepCount : Nat
  attempts : List (Nat × TrOutcome)
  timeouts : List Nat
deriving DecidableEq

/-- `for ttl in range(1, max_hops + 1): ...` of `traceroute`, over the
remaining TTL values.  A `reply` observation breaks out of the loop
before `time.sleep(1)`; `exceeded` and `timedOut` sleep and continue,
`timedOut` also incrementing `timeout_count[ttl]` (recorded here as the
list of incremented TTLs). -/
def trLoop (recv : Nat → TrOutcome) : List Nat → TrState → TrState
  | [], st => st
  | ttl :: rest, st =>
    match recv ttl with
    | TrOutcome.reply =>
      { st with sends := st.sends + 1
                attempts := st.attempts ++ [(ttl, TrOutcome.reply)] }
    | TrOutcome.exceeded =>
      trLoop recv rest
        { st with sends := st.sends + 1
                  attempts := st.attempts ++ [(ttl, TrOutcome.exceeded)]
                  sleepCount := st.sleepCount + 1 }
    | TrOutcome.timedOut =>
      trLoop recv rest
        { st with sends := st.sends + 1
                  attempts := st.attempts ++ [(ttl, TrOutcome.timedOut)]
                  sleepCount := st.sleepCount + 1
                  timeouts := st.timeouts ++ [ttl] }

structure TrTrace where
  opened : Bool
  closeCount : Nat
  loop : TrState
deriving DecidableEq

/-- `traceroute(host, print_num, print_summary, count)`: same
open/resolve preamble as `ping` (including the unclosed socket on
resolution failure); the loop runs over `ttl = 1..30` (`max_hops = 30`)
and `sock.close()` runs once after loop and summary. -/
def traceroute (permission resolves : Bool) (recv : Nat → TrOutcome) : TrTrace :=
  if permission = false then ⟨false, 0, ⟨0, 0, [], []⟩⟩
  else if resolves = false then ⟨true, 0, ⟨0, 0, [], []⟩⟩
  else ⟨true, 1, trLoop recv (List.range' 1 30) ⟨0, 0, [], []⟩⟩

/-- The attempt list the traceroute loop produces, computed directly by
recursion (proved equal to the `trLoop` field in `trLoop_attempts`):
one entry per probed TTL, cut short at the first `reply`. -/
def probes (recv : Nat → TrOutcome) : List Nat → List (Nat × TrOutcome)
  | [] => []
  | ttl :: rest =>
    match recv ttl with
    | TrOutcome.reply => [(ttl, TrOutcome.reply)]
    | TrOutcome.exceeded => (ttl, TrOutcome.exceeded) :: probes recv rest
    | TrOutcome.timedOut => (ttl, TrOutcome.timedOut) :: probes recv rest

/-! ### Arithmetic facts about the carry fold -/

lemma and_65535_eq_mod (m : Nat) : m &&& 65535 = m % 65536 := by
  have h := Nat.and_pow_two_sub_one_eq_mod m 16
  norm_num at h
  exact h

lemma shiftRight_16_eq_div (m : Nat) : m >>> 16 = m / 65536 := by
  rw [Nat.shiftRight_eq_div_pow]

lemma fold16_step_lt {s : Nat} (h : ¬ s < 65536) : (s >>> 16) + (s &&& 65535) < s := by
  rw [and_65535_eq_mod, shiftRight_16_eq_div]
  omega

lemma fold16Go_lt : ∀ fuel s, s ≤ fuel → fold16Go fuel s < 65536
  | 0, s, h => by
    simp only [fold16Go]
    omega
  | fuel + 1, s, h => by
    simp only [fold16Go]
    split
    · omega
    · next hge =>
      exact fold16Go_lt fuel _ (by have := fold16_step_lt hge; omega)

lemma fold16Go_mod : ∀ fuel s, fold16Go fuel s % 65535 = s % 65535
  | 0, s => rfl
  | fuel + 1, s => by
    simp only [fold16Go]
    split
    · rfl
    · rw [fold16Go_mod fuel]
      rw [and_65535_eq_mod, shiftRight_16_eq_div]
      omega

lemma fold16Go_pos : ∀ fuel s, 0 < s → 0 < fold16Go fuel s
  | 0, s, h => h
  | fuel + 1, s, h => by
    simp only [fold16Go]
    split
    · exact h
    · next hge =>
      refine fold16Go_pos fuel _ ?_
      rw [and_65535_eq_mod, shiftRight_16_eq_div]
      omega

lemma fold16Go_zero : ∀ fuel, fold16Go fuel 0 = 0
  | 0 => rfl
  | fuel + 1 => by simp [fold16Go]

lemma fold16Go_congr : ∀ fuel fuel' s, s ≤ fuel → s ≤ fuel' →
    fold16Go fuel s = fold16Go fuel' s
  | 0, fuel', s, h, _ => by
    have hs : s = 0 := by omega
    subst hs
    rw [fold16Go_zero, fold16Go_zero]
  | fuel + 1, 0, s, _, h' => by
    have hs : s = 0 := by omega
    subst hs
    rw [fold16Go_zero, fold16Go_zero]
  | fuel + 1, fuel' + 1, s, h, h' => by
    simp only [fold16Go]
    split
    · rfl
    · next hge =>
      have hlt := fold16_step_lt hge
      exact fold16Go_congr fuel fuel' _ (by omega) (by omega)

/-- `fold16` satisfies the defining equation of the Python `while` loop:
it is the loop's fixed-point computation. -/
lemma fold16_isFixpoint (s : Nat) :
    fold16 s = if s < 65536 then s else fold16 ((s >>> 16) + (s &&& 65535)) := by
  split
  · next hlt =>
    unfold fold16
    cases s with
    | zero => rfl
    | succ n =>
      simp only [fold16Go]
      rw [if_pos hlt]
  · next hge =>
    have hlt := fold16_step_lt hge
    obtain ⟨n, rfl⟩ : ∃ n, s = n + 1 := ⟨s - 1, by omega⟩
    show fold16Go (n + 1) (n + 1) = _
    simp only [fold16Go]
    rw [if_neg hge]
    exact fold16Go_congr n _ _ (by omega) le_rfl

lemma fold16_lt (s : Nat) : fold16 s < 65536 := fold16Go_lt s s le_rfl

lemma fold16_mod (s : Nat) : fold16 s % 65535 = s % 65535 := fold16Go_mod s s

lemma fold16_pos {s : Nat} (h : 0 < s) : 0 < fold16 s := fold16Go_pos s s h

/-- A positive multiple of `0xFFFF` folds to exactly `0xFFFF`. -/
lemma fold16_eq_65535 {s : Nat} (hmod : s % 65535 = 0) (hpos : 0 < s) :
    fold16 s = 65535 := by
  have h1 := fold16_lt s
  have h2 := fold16_mod s
  have h3 := fold16_pos hpos
  omega

/-! ### Structure of the word sum -/

lemma pairSumLast_cons_cons (a b : Nat) (rest : List Nat) :
    pairSumLast (a :: b :: rest) =
      ((a <<< 8) + b + (pairSumLast rest).1, some ((pairSumLast rest).2.getD b)) := by
  rcases h : pairSumLast rest with ⟨t, l⟩
  cases l <;> simp [pairSumLast, h]

/-- Summing a buffer that starts with an 8-byte echo-request header:
the header contributes its four big-endian words, and the stray byte the
odd-length branch would read is the one from the payload (default `1`,
the header's own last byte, when the payload has at most one byte). -/
lemma pairSumLast_header (x y a b : Nat) (data : List Nat) :
    pairSumLast ([8, 0, x, y, a, b, 0, 1] ++ data) =
      (2048 + ((x <<< 8) + y) + ((a <<< 8) + b) + 1 + (pairSumLast data).1,
       some ((pairSumLast data).2.getD 1)) := by
  have h8 : (8 : Nat) <<< 8 = 2048 := by decide
  have h0 : (0 : Nat) <<< 8 = 0 := by decide
  simp only [List.cons_append, List.nil_append, pairSumLast_cons_cons, Option.getD_some,
    h8, h0, Prod.mk.injEq]
  exact ⟨by omega, trivial⟩

lemma icmpSum_header (x y a b : Nat) (data : List Nat) :
    icmpSum ([8, 0, x, y, a, b, 0, 1] ++ data) =
      some (2048 + ((x <<< 8) + y) + ((a <<< 8) + b) + 1 + (pairSumLast data).1 +
        (if data.length % 2 = 1 then (pairSumLast data).2.getD 1 else 0)) := by
  simp only [icmpSum, pairSumLast_header, List.length_append, List.length_cons,
    List.length_nil]
  by_cases hpar : data.length % 2 = 1
  · rw [if_pos (by omega), if_pos hpar]
  · rw [if_neg (by omega), if_neg hpar]
    simp

/-! ### The ping loop runs `count` identical iterations -/

lemma pingLoop_eq (recv : Nat → Bool) :
    ∀ (l : List Nat) (st : PingSt),
      pingLoop recv l st =
        ⟨st.sends + l.length, st.sleepCount + l.length, st.observations ++ l.map recv⟩
  | [], st => by simp [pingLoop]
  | i :: rest, st => by
    rw [pingLoop, pingLoop_eq recv rest]
    simp +arith [List.append_assoc]

/-! ### The traceroute loop visits a prefix of the TTL list -/

lemma trLoop_attempts (recv : Nat → TrOutcome) :
    ∀ (ttls : List Nat) (st : TrState),
      (trLoop recv ttls st).attempts = st.attempts ++ probes recv ttls
  | [], st => by simp [trLoop, probes]
  | ttl :: rest, st => by
    rcases h : recv ttl with _ | _ | _ <;>
      simp [trLoop, probes, h, trLoop_attempts recv rest, List.append_assoc]

lemma probes_length_le (recv : Nat → TrOutcome) :
    ∀ ttls : List Nat, (probes recv ttls).length ≤ ttls.length
  | [] => by simp [probes]
  | ttl :: rest => by
    have ih := probes_length_le recv rest
    rcases h : recv ttl with _ | _ | _ <;> simp [probes, h] <;> omega

lemma probes_ne_nil (recv : Nat → TrOutcome) (ttl : Nat) (rest : List Nat) :
    probes recv (ttl :: rest) ≠ [] := by
  rcases h : recv ttl with _ | _ | _ <;> simp [probes, h]

lemma probes_map_fst (recv : Nat → TrOutcome) :
    ∀ ttls : List Nat,
      (probes recv ttls).map Prod.fst = ttls.take (probes recv ttls).length
  | [] => by simp [probes]
  | ttl :: rest => by
    rcases h : recv ttl with _ | _ | _ <;>
      simp [probes, h, probes_map_fst recv rest]

lemma probes_last (recv : Nat → TrOutcome) :
    ∀ ttls : List Nat,
      (probes recv ttls).length = ttls.length ∨
        ∃ t, (probes recv ttls).getLast? = some (t, TrOutcome.reply)
  | [] => Or.inl rfl
  | ttl :: rest => by
    rcases h : recv ttl with _ | _ | _
    · exact Or.inr ⟨ttl, by simp [probes, h]⟩
    · rcases probes_last recv rest with hl | ⟨t, ht⟩
      · exact Or.inl (by simp [probes, h, hl])
      · refine Or.inr ⟨t, ?_⟩
        rcases hr : probes recv rest with _ | ⟨q, qs⟩
        · rw [hr] at ht
          simp at ht
        · rw [hr] at ht
          simp [probes, h, hr, List.getLast?_cons_cons, ← ht]
    · rcases probes_last recv rest with hl | ⟨t, ht⟩
      · exact Or.inl (by simp [probes, h, hl])
      · refine Or.inr ⟨t, ?_⟩
        rcases hr : probes recv rest with _ | ⟨q, qs⟩
        · rw [hr] at ht
          simp at ht
        · rw [hr] at ht
          simp [probes, h, hr, List.getLast?_cons_cons, ← ht]

lemma probes_dropLast (recv : Nat → TrOutcome) :
    ∀ ttls : List Nat, ∀ p ∈ (probes recv ttls).dropLast, p.2 ≠ TrOutcome.reply
  | [] => by simp [probes]
  | ttl :: rest => by
    intro p hp
    rcases h : recv ttl with _ | _ | _
    · simp only [probes, h] at hp
      simp at hp
    · simp only [probes, h] at hp
      rcases hr : probes recv rest with _ | ⟨q, qs⟩
      · rw [hr] at hp
        simp at hp
      · rw [hr, List.dropLast_cons₂] at hp
        rcases List.mem_cons.mp hp with hp1 | hp1
        · subst hp1
          simp
        · rw [← hr] at hp1
          exact probes_dropLast recv rest p hp1
    · simp only [probes, h] at hp
      rcases hr : probes recv rest with _ | ⟨q, qs⟩
      · rw [hr] at hp
        simp at hp
      · rw [hr, List.dropLast_cons₂] at hp
        rcases List.mem_cons.mp hp with hp1 | hp1
        · subst hp1
          simp
        · rw [← hr] at hp1
          exact probes_dropLast recv rest p hp1

lemma range'_take : ∀ (m n s : Nat), m ≤ n → (List.range' s n).take m = List.range' s m
  | 0, n, s, _ => by simp
  | m + 1, n, s, h => by
    obtain ⟨k, rfl⟩ : ∃ k, n = k + 1 := ⟨n - 1, by omega⟩
    rw [List.range'_succ, List.take_succ_cons, range'_take m k (s + 1) (by omega),
      List.range'_succ]

/-! ### Listener behaviour when nothing qualifying arrives -/

lemma receive_ping_timedOut (id : Nat) (timeout t0 : ℚ) :
    ∀ (events : List Event) (now : ℚ),
      now ≤ t0 + timeout →
      (∀ e ∈ events, (parseICMP e.data).isSome) →
      (∀ e ∈ events, ∀ h, parseICMP e.data = some h →
          ¬(h.ty = 0 ∧ h.packet_id = id)) →
      (receive_ping id timeout t0 events now).1 = RecvResult.timedOut ∧
        (receive_ping id timeout t0 events now).2 ≤ t0 + timeout
  | [], now, hnow, _, _ => by
    simp only [receive_ping]
    split
    · exact ⟨rfl, le_rfl⟩
    · exact ⟨rfl, hnow⟩
  | e :: rest, now, hnow, hparse, hqual => by
    simp only [receive_ping]
    split
    · next hwhile =>
      split
      · next hready =>
        rcases hps : parseICMP e.data with _ | h
        · have := hparse e (by simp)
          rw [hps] at this
          simp at this
        · simp only [hps]
          rw [if_neg (hqual e (by simp) h hps)]
          exact receive_ping_timedOut id timeout t0 rest e.time
            (by linarith)
            (fun e' he' => hparse e' (by simp [he']))
            (fun e' he' => hqual e' (by simp [he']))
      · exact ⟨rfl, le_rfl⟩
    · exact ⟨rfl, hnow⟩

lemma receive_traceroute_timedOut (id : Nat) (timeout t0 : ℚ) :
    ∀ (events : List Event) (now : ℚ),
      now ≤ t0 + timeout →
      (∀ e ∈ events, (parseICMP e.data).isSome) →
      (∀ e ∈ events, ∀ h, parseICMP e.data = some h →
          h.ty ≠ 0 ∧ h.ty ≠ 11) →
      (receive_traceroute id timeout t0 events now).1 = RecvResult.timedOut ∧
        (receive_traceroute id timeout t0 events now).2 ≤ t0 + timeout
  | [], now, hnow, _, _ => by
    simp only [receive_traceroute]
    split
    · exact ⟨rfl, le_rfl⟩
    · exact ⟨rfl, hnow⟩
  | e :: rest, now, hnow, hparse, hqual => by
    simp only [receive_traceroute]
    split
    · next hwhile =>
      split
      · next hready =>
        rcases hps : parseICMP e.data with _ | h
        · have := hparse e (by simp)
          rw [hps] at this
          simp at this
        · simp only [hps]
          rw [if_pos (ne_or_eq h.packet_id id),
            if_neg (hqual e (by simp) h hps).1,
            if_neg (hqual e (by simp) h hps).2]
          exact receive_traceroute_timedOut id timeout t0 rest e.time
            (by linarith)
            (fun e' he' => hparse e' (by simp [he']))
            (fun e' he' => hqual e' (by simp [he']))
      · exact ⟨rfl, le_rfl⟩
    · exact ⟨rfl, hnow⟩


/-! ### Checksum/packet auxiliary results -/

lemma checksum_header_some (x y a b : Nat) (data : List Nat) :
    checksum ([8, 0, x, y, a, b, 0, 1] ++ data) =
      some (65535 - fold16 (2048 + ((x <<< 8) + y) + ((a <<< 8) + b) + 1 +
        (pairSumLast data).1 +
        (if data.length % 2 = 1 then (pairSumLast data).2.getD 1 else 0))) := by
  rw [checksum, icmpSum_header, Option.map_some']

/-- Transmitting the folded complement alongside the summed data makes
the overall sum fold to `0xFFFF`. -/
lemma fold16_complement (s c : Nat) (hc : c = 65535 - fold16 s) :
    fold16 (s + c) = 65535 := by
  have hFlt := fold16_lt s
  have hFmod := fold16_mod s
  rcases Nat.eq_zero_or_pos s with h0s | h0s
  · subst h0s
    have h0 : fold16 0 = 0 := rfl
    rw [h0] at hc
    subst hc
    exact fold16_eq_65535 (by norm_num) (by norm_num)
  · exact fold16_eq_65535 (by omega) (by omega)

/-- A packet whose checksum field (bytes 2-3) carries the folded
complement of the zero-checksum sum validates under `checksum`: the
zeroed words and the embedded complement recombine to a multiple of
`0xFFFF`. -/
lemma embedded_checksum_valid (a b : Nat) (data : List Nat) (c : Nat)
    (hc : c = 65535 - fold16 (2048 + ((0 <<< 8) + 0) + ((a <<< 8) + b) + 1 +
      (pairSumLast data).1 +
      (if data.length % 2 = 1 then (pairSumLast data).2.getD 1 else 0))) :
    checksum ([8, 0, c / 256, c % 256, a, b, 0, 1] ++ data) = some 0 ∧
      ∃ t, icmpSum ([8, 0, c / 256, c % 256, a, b, 0, 1] ++ data) = some t ∧
        fold16 t = 65535 := by
  generalize hS : 2048 + ((0 <<< 8) + 0) + ((a <<< 8) + b) + 1 +
      (pairSumLast data).1 +
      (if data.length % 2 = 1 then (pairSumLast data).2.getD 1 else 0) = s at hc
  rw [checksum, icmpSum_header, Option.map_some']
  have hc2 : ((c / 256) <<< 8) + c % 256 = c := by
    rw [Nat.shiftLeft_eq]
    norm_num
    omega
  rw [hc2]
  have hsum : 2048 + c + ((a <<< 8) + b) + 1 + (pairSumLast data).1 +
      (if data.length % 2 = 1 then (pairSumLast data).2.getD 1 else 0) = s + c := by
    omega
  rw [hsum, fold16_complement s c hc]
  exact ⟨by norm_num, s + c, rfl, fold16_complement s c hc⟩

lemma rangeMap_getD (L i : Nat) (h : i < L) :
    ((List.range L).map (fun j => j % 256)).getD i 0 = i % 256 := by
  rw [List.getD_eq_getElem?_getD, List.getElem?_map, List.getElem?_range h]
  rfl

lemma header_append_length (h0 h1 h2 h3 h4 h5 h6 h7 : Nat) (data : List Nat) :
    ([h0, h1, h2, h3, h4, h5, h6, h7] ++ data).length = 8 + data.length := by
  simp
  omega

lemma header_append_take (h0 h1 h2 h3 h4 h5 h6 h7 : Nat) (data : List Nat) :
    ([h0, h1, h2, h3, h4, h5, h6, h7] ++ data).take 8 = [h0, h1, h2, h3, h4, h5, h6, h7] :=
  List.take_left' rfl

lemma header_append_getD (h0 h1 h2 h3 h4 h5 h6 h7 : Nat) (data : List Nat) (i : Nat) :
    ([h0, h1, h2, h3, h4, h5, h6, h7] ++ data).getD (8 + i) 0 = data.getD i 0 := by
  have h := List.getD_append_right [h0, h1, h2, h3, h4, h5, h6, h7] data 0 (8 + i) (by simp)
  simpa using h

/-! ### Claims about the packet engine -/

/-- C10: `checksum` is not total: on any buffer of length exactly 1 the
word-summing loop never executes, the loop index read by the odd-length
branch is unbound, and the function raises (`none`) instead of returning
a 16-bit value. -/
theorem checksum_length_one_raises : ∀ b : Nat, checksum [b] = none :=
  fun _ => rfl

/-- C2, evaluated at the failing input: on the odd-length buffer
`[0, 5, 1]` the source's `checksum` returns `65525` — the loop sums the
word `0x0005`, then the odd-length branch re-adds the already-counted
byte `5` (unshifted, `i` still pointing at the last pair) and never
reads the final byte `1` — whereas the spec's standard algorithm (final
byte as high byte of a virtual trailing word, words `0x0005` and
`0x0100`) yields `65274`.  The code deviates from the §4.1 contract on
every odd-length buffer. -/
theorem checksum_deviates_from_standard_on_odd_length :
    checksum [0, 5, 1] = some 65525 ∧ stdChecksum [0, 5, 1] = 65274 ∧
      some (stdChecksum [0, 5, 1]) ≠ checksum [0, 5, 1] := by
  refine ⟨by decide, by decide, by decide⟩

/-- C6: a packet built by `create_packet` — with the true checksum
embedded in bytes 2-3 of the header — validates: recomputing `checksum`
over the exact transmitted bytes yields 0; equivalently the folded word
sum over all words including the checksum field is `0xFFFF`. -/
theorem transmitted_packet_checksum_validates (id L : Nat) (p : List Nat)
    (hp : create_packet id L = some p) :
    checksum p = some 0 ∧ ∃ t, icmpSum p = some t ∧ fold16 t = 65535 := by
  rw [create_packet] at hp
  split at hp
  case isFalse => simp at hp
  case isTrue hid =>
    rw [checksum_header_some] at hp
    simp only [Option.map_some', Option.some.injEq] at hp
    subst hp
    exact embedded_checksum_valid (id / 256) (id % 256) _ _ rfl

/-- C6 witness: the concrete packet for `id = 7`, `L = 2`. -/
theorem transmitted_packet_checksum_validates_witness :
    create_packet 7 2 = some [8, 0, 247, 246, 0, 7, 0, 1, 0, 1] ∧
      checksum [8, 0, 247, 246, 0, 7, 0, 1, 0, 1] = some 0 ∧
      ∃ t, icmpSum [8, 0, 247, 246, 0, 7, 0, 1, 0, 1] = some t ∧ fold16 t = 65535 :=
  ⟨by decide, (transmitted_packet_checksum_validates 7 2 _ (by decide)).1,
    (transmitted_packet_checksum_validates 7 2 _ (by decide)).2⟩

/-- C7: for `id < 2 ^ 16` and any payload length `L ≥ 0`,
`create_packet id L` succeeds and returns the packet
`header ++ payload` of exactly `8 + L` bytes: the first 8 bytes encode,
big-endian, type 8, code 0, the computed checksum `c`, `id`, and
sequence number 1, and the payload byte at offset `8 + i` is `i mod
256`; `L = 0` yields the bare 8-byte header. -/
theorem create_packet_layout (id L : Nat) (hid : id < 65536) :
    ∃ c, checksum ([8, 0, 0, 0, id / 256, id % 256, 0, 1]
        ++ (List.range L).map (fun i => i % 256)) = some c ∧
      create_packet id L =
        some ([8, 0, c / 256, c % 256, id / 256, id % 256, 0, 1]
          ++ (List.range L).map (fun i => i % 256)) ∧
      ([8, 0, c / 256, c % 256, id / 256, id % 256, 0, 1]
          ++ (List.range L).map (fun i => i % 256)).length = 8 + L ∧
      ([8, 0, c / 256, c % 256, id / 256, id % 256, 0, 1]
          ++ (List.range L).map (fun i => i % 256)).take 8
        = [8, 0, c / 256, c % 256, id / 256, id % 256, 0, 1] ∧
      ∀ i, i < L →
        ([8, 0, c / 256, c % 256, id / 256, id % 256, 0, 1]
          ++ (List.range L).map (fun i => i % 256)).getD (8 + i) 0 = i % 256 := by
  refine ⟨_, checksum_header_some 0 0 (id / 256) (id % 256)
      ((List.range L).map (fun i => i % 256)), ?_, ?_, ?_, ?_⟩
  · rw [create_packet, if_pos hid, checksum_header_some, Option.map_some']
  · rw [header_append_length]
    simp
  · exact header_append_take _ _ _ _ _ _ _ _ _
  · intro i hi
    rw [header_append_getD]
    exact rangeMap_getD L i hi

/-- C7 witness: instantiated at `id = 7`, `L = 2`. -/
theorem create_packet_layout_witness :
    (7 : Nat) < 65536 ∧
      ∃ c, checksum ([8, 0, 0, 0, 7 / 256, 7 % 256, 0, 1]
          ++ (List.range 2).map (fun i => i % 256)) = some c ∧
        create_packet 7 2 =
          some ([8, 0, c / 256, c % 256, 7 / 256, 7 % 256, 0, 1]
            ++ (List.range 2).map (fun i => i % 256)) ∧
        ([8, 0, c / 256, c % 256, 7 / 256, 7 % 256, 0, 1]
            ++ (List.range 2).map (fun i => i % 256)).length = 8 + 2 ∧
        ([8, 0, c / 256, c % 256, 7 / 256, 7 % 256, 0, 1]
            ++ (List.range 2).map (fun i => i % 256)).take 8
          = [8, 0, c / 256, c % 256, 7 / 256, 7 % 256, 0, 1] ∧
        ∀ i, i < 2 →
          ([8, 0, c / 256, c % 256, 7 / 256, 7 % 256, 0, 1]
            ++ (List.range 2).map (fun i => i % 256)).getD (8 + i) 0 = i % 256 :=
  ⟨by norm_num, create_packet_layout 7 2 (by norm_num)⟩

/-! ### Claims about the reply listener -/

/-- C1, evaluated at the failing input: an inbound 28-byte ICMP packet
with type 0 and identifier 6 arrives immediately while the run's active
identifier is 5.  `receive_ping` ignores it and times out, but
`receive_traceroute` — whose filter `packet_id != id or packet_id == id`
is a tautology despite the comment announcing an identifier check —
returns a `Reply` observation derived from the foreign packet. -/
theorem traceroute_accepts_foreign_identifier :
    parseICMP [0, 0, 0, 0, 0, 0, 0, 0, 0, 0, 0, 0, 0, 0, 0, 0, 0, 0, 0, 0,
        0, 0, 0, 0, 0, 6, 0, 1] = some ⟨0, 0, 0, 6, 1⟩ ∧
      (6 : Nat) ≠ 5 ∧
      (receive_traceroute 5 1 0
        [⟨0, 9, [0, 0, 0, 0, 0, 0, 0, 0, 0, 0, 0, 0, 0, 0, 0, 0, 0, 0, 0, 0,
          0, 0, 0, 0, 0, 6, 0, 1]⟩] 0).1 = RecvResult.reply 9 0 ∧
      (receive_ping 5 1 0
        [⟨0, 9, [0, 0, 0, 0, 0, 0, 0, 0, 0, 0, 0, 0, 0, 0, 0, 0, 0, 0, 0, 0,
          0, 0, 0, 0, 0, 6, 0, 1]⟩] 0).1 = RecvResult.timedOut := by
  refine ⟨by decide, by decide, ?_, ?_⟩
  · norm_num [receive_traceroute, parseICMP]
  · norm_num [receive_ping, parseICMP]

/-- C9: a concrete inbound packet of fewer than 28 bytes (here 10 zero
bytes) makes both receive paths raise while unpacking the 8-byte ICMP
header from bytes 20..28, instead of ignoring the datagram and
continuing to wait. -/
theorem short_packet_crashes_listener :
    ([0, 0, 0, 0, 0, 0, 0, 0, 0, 0] : List Nat).length < 28 ∧
      (receive_ping 5 1 0 [⟨0, 3, [0, 0, 0, 0, 0, 0, 0, 0, 0, 0]⟩] 0).1
        = RecvResult.crashed ∧
      (receive_traceroute 5 1 0 [⟨0, 3, [0, 0, 0, 0, 0, 0, 0, 0, 0, 0]⟩] 0).1
        = RecvResult.crashed := by
  refine ⟨by decide, ?_, ?_⟩
  · norm_num [receive_ping, parseICMP]
  · norm_num [receive_traceroute, parseICMP]

/-- C8 counterexample: an execution in which no qualifying packet
arrives need not end in `TimedOut` — a truncated 24-byte datagram
within the window is not qualifying, yet the listener crashes on it
rather than returning the timeout result. -/
theorem nonqualifying_crash_not_timedOut :
    parseICMP [0, 0, 0, 0, 0, 0, 0, 0, 0, 0, 0, 0, 0, 0, 0, 0, 0, 0, 0, 0,
        0, 0, 0, 0] = none ∧
      (receive_ping 5 1 0 [⟨0, 4, [0, 0, 0, 0, 0, 0, 0, 0, 0, 0, 0, 0, 0, 0,
        0, 0, 0, 0, 0, 0, 0, 0, 0, 0]⟩] 0).1 = RecvResult.crashed ∧
      RecvResult.crashed ≠ RecvResult.timedOut := by
  refine ⟨by decide, ?_, by decide⟩
  norm_num [receive_ping, parseICMP]

/-- C8 as amended: in every listener execution in which every inbound
datagram is well-formed enough to parse (≥ 28 bytes) and none is
qualifying — for `receive_ping`, no type-0 packet carrying the active
identifier; for `receive_traceroute`, no packet of type 0 or 11 — the
result is the `TimedOut` return, and since every readiness wait is
armed with exactly the remaining time to the deadline, the instant of
return never exceeds `t0 + timeout`. -/
theorem listener_timedOut_within_deadline (events : List Event) (id : Nat)
    (timeout t0 : ℚ) (h0 : 0 ≤ timeout)
    (hparse : ∀ e ∈ events, (parseICMP e.data).isSome) :
    ((∀ e ∈ events, ∀ h, parseICMP e.data = some h →
        ¬(h.ty = 0 ∧ h.packet_id = id)) →
      (receive_ping id timeout t0 events t0).1 = RecvResult.timedOut ∧
        (receive_ping id timeout t0 events t0).2 ≤ t0 + timeout) ∧
    ((∀ e ∈ events, ∀ h, parseICMP e.data = some h → h.ty ≠ 0 ∧ h.ty ≠ 11) →
      (receive_traceroute id timeout t0 events t0).1 = RecvResult.timedOut ∧
        (receive_traceroute id timeout t0 events t0).2 ≤ t0 + timeout) :=
  ⟨fun hq => receive_ping_timedOut id timeout t0 events t0 (by linarith) hparse hq,
   fun hq => receive_traceroute_timedOut id timeout t0 events t0 (by linarith) hparse hq⟩

/-- C8 witness: the empty traffic trace with `timeout = 1`, `t0 = 0`. -/
theorem listener_timedOut_within_deadline_witness :
    (receive_ping 5 1 0 [] 0).1 = RecvResult.timedOut ∧
      (receive_ping 5 1 0 [] 0).2 ≤ 0 + 1 :=
  (listener_timedOut_within_deadline [] 5 1 0 (by norm_num) (by simp)).1 (by simp)

/-! ### Claims about the probe loops -/

/-- C3, evaluated at the failing input: when hostname resolution fails
(`gaierror`) the raw socket has already been opened, and both `ping`
and `traceroute` return without ever calling `sock.close()` — the
socket is not closed on this exit path. -/
theorem socket_left_open_on_resolution_failure :
    (ping true false (fun _ => false) 4).opened = true ∧
      (ping true false (fun _ => false) 4).closeCount = 0 ∧
      (traceroute true false (fun _ => TrOutcome.timedOut)).opened = true ∧
      (traceroute true false (fun _ => TrOutcome.timedOut)).closeCount = 0 :=
  ⟨rfl, rfl, rfl, rfl⟩

/-- C4 counterexample: with `count = 1` the single iteration of the
ping loop is followed by `time.sleep(interval)` — the loop body sleeps
unconditionally, so there is a sleep after the last attempt where the
claim requires none. -/
theorem ping_sleeps_after_last_attempt :
    (ping true true (fun _ => false) 1).loop.sends = 1 ∧
      (ping true true (fun _ => false) 1).loop.sleepCount ≠ 0 := by
  refine ⟨by decide, by decide⟩

/-- C4 as amended: for every count `N` the ping loop performs exactly
`N` send attempts regardless of each attempt's observation, and it
sleeps `interval` seconds after every attempt — including the last —
for `N` sleeps in total. -/
theorem ping_sends_and_sleeps_count (permission resolves : Bool)
    (recv : Nat → Bool) (count : Nat)
    (hp : permission = true) (hr : resolves = true) :
    (ping permission resolves recv count).loop.sends = count ∧
      (ping permission resolves recv count).loop.sleepCount = count ∧
      (ping permission resolves recv count).loop.observations
        = (List.range count).map recv := by
  subst hp
  subst hr
  have hl : (ping true true recv count).loop
      = pingLoop recv (List.range count) ⟨0, 0, []⟩ := rfl
  rw [hl, pingLoop_eq]
  simp

/-- C4 witness: instantiated at `count = 3` with an all-timeout run. -/
theorem ping_sends_and_sleeps_count_witness :
    (ping true true (fun _ => false) 3).loop.sends = 3 ∧
      (ping true true (fun _ => false) 3).loop.sleepCount = 3 ∧
      (ping true true (fun _ => false) 3).loop.observations
        = (List.range 3).map (fun _ => false) :=
  ping_sends_and_sleeps_count true true (fun _ => false) 3 rfl rfl

/-- C5: on a run that reaches the probe loop, the TTLs actually probed
are exactly `1, 2, ..., k` for some `1 ≤ k ≤ 30` (strictly increasing
by 1 from 1); every attempt before the last observes something other
than a `Reply`, and the run stops either because the last attempt
observed the first `Reply` or because TTL 30 was reached — `Exceeded`
and `TimedOut` observations never cut the loop short. -/
theorem traceroute_ttl_progression (permission resolves : Bool)
    (recv : Nat → TrOutcome)
    (hp : permission = true) (hr : resolves = true) :
    (traceroute permission resolves recv).loop.attempts.map Prod.fst
        = List.range' 1 (traceroute permission resolves recv).loop.attempts.length ∧
      1 ≤ (traceroute permission resolves recv).loop.attempts.length ∧
      (traceroute permission resolves recv).loop.attempts.length ≤ 30 ∧
      (∀ p ∈ (traceroute permission resolves recv).loop.attempts.dropLast,
        p.2 ≠ TrOutcome.reply) ∧
      ∃ q, (traceroute permission resolves recv).loop.attempts.getLast? = some q ∧
        (q.2 = TrOutcome.reply ∨
          (traceroute permission resolves recv).loop.attempts.length = 30) := by
  subst hp
  subst hr
  have hA : (traceroute true true recv).loop.attempts
      = probes recv (List.range' 1 30) := by
    have h : (traceroute true true recv).loop
        = trLoop recv (List.range' 1 30) ⟨0, 0, [], []⟩ := rfl
    rw [h, trLoop_attempts]
    simp
  rw [hA]
  have hlen30 : (probes recv (List.range' 1 30)).length ≤ 30 := by
    simpa using probes_length_le recv (List.range' 1 30)
  have h30 : List.range' 1 30 = 1 :: List.range' 2 29 := by
    rw [show (30 : Nat) = 29 + 1 from rfl, List.range'_succ]
  have hne : probes recv (List.range' 1 30) ≠ [] := by
    rw [h30]
    exact probes_ne_nil recv 1 (List.range' 2 29)
  refine ⟨?_, ?_, hlen30, probes_dropLast recv _, ?_⟩
  · rw [probes_map_fst, range'_take _ _ _ hlen30]
  · have := List.length_pos.mpr hne
    omega
  · rcases probes_last recv (List.range' 1 30) with hl | ⟨t, ht⟩
    · obtain ⟨q, hq⟩ := Option.isSome_iff_exists.mp (List.getLast?_isSome.mpr hne)
      refine ⟨q, hq, Or.inr ?_⟩
      rw [hl]
      simp
    · exact ⟨(t, TrOutcome.reply), ht, Or.inl rfl⟩

/-- C5 witness: a first-hop `Reply` ends the run after the single
attempt at TTL 1. -/
theorem traceroute_ttl_progression_witness :
    (traceroute true true (fun _ => TrOutcome.reply)).loop.attempts.map Prod.fst
        = List.range' 1
          (traceroute true true (fun _ => TrOutcome.reply)).loop.attempts.length ∧
      1 ≤ (traceroute true true (fun _ => TrOutcome.reply)).loop.attempts.length ∧
      (traceroute true true (fun _ => TrOutcome.reply)).loop.attempts.length ≤ 30 ∧
      (∀ p ∈ (traceroute true true (fun _ => TrOutcome.reply)).loop.attempts.dropLast,
        p.2 ≠ TrOutcome.reply) ∧
      ∃ q, (traceroute true true
          (fun _ => TrOutcome.reply)).loop.attempts.getLast? = some q ∧
        (q.2 = TrOutcome.reply ∨
          (traceroute true true
            (fun _ => TrOutcome.reply)).loop.attempts.length = 30) :=
  traceroute_ttl_progression true true (fun _ => TrOutcome.reply) rfl rfl
